import Mathlib

/-!
# Conduit relay layer: shallow embedding and verification

This file embeds the core relay subsystem of the Conduit repository in Lean 4
and proves the stated correctness properties against it.

The embedded code:
* `Hub` / `AgentConn` / `ClientConn` (control-plane side): agent registry with
  supersession, viewer registry, fan-out broadcast, the management read loop
  with its pending-call table, call issuance with deadline, and teardown
  (`apps/api/internal/app`, file with `Hub`, `AgentConn`, `ClientConn`).
* the agent-side bridge (`agents/mc-agent` main): the reconnect supervisor
  loop with exponential backoff and jitter, the bridge session's two relay
  pipes with response interception for self-issued calls, and the telemetry
  recorder.

Go maps keyed by strings are embedded as association lists with unique keys
(`mapLookup` / `mapInsert` / `mapDelete`); channels are identified by numeric
tokens, and a delivery to a channel is recorded as an explicit event.
Goroutine scheduling and blocking I/O are externalised: each loop body is a
pure step function from state and an inbound datum to state and an event, and
nondeterministic outcomes (which send fails, what the random jitter draw was,
how the `select` resolved) are oracle parameters of the step.
-/

namespace Conduit

/-- Raw bytes of one websocket message / JSON value, kept abstract as a
string: the relay layer forwards them verbatim and only inspects the
presence of a few decoded keys. -/
abbrev RawMsg := String

/-- Channel identity token: stands for one `chan []byte` value so that
distinct pending-call slots can be told apart. -/
abbrev Chan := Nat

/-- Go `map[string]V` as an association list whose keys are unique. -/
abbrev GoMap (V : Type) := List (String × V)

/-- `m[k]` lookup on a Go map. -/
def mapLookup {V : Type} : GoMap V → String → Option V
  | [], _ => none
  | (k, v) :: rest, key => if k = key then some v else mapLookup rest key

/-- `m[k] = v` assignment on a Go map: replaces the entry if the key is
present, appends it otherwise. -/
def mapInsert {V : Type} : GoMap V → String → V → GoMap V
  | [], key, v => [(key, v)]
  | (k, w) :: rest, key, v =>
      if k = key then (key, v) :: rest else (k, w) :: mapInsert rest key v

/-- `delete(m, k)` on a Go map. -/
def mapDelete {V : Type} : GoMap V → String → GoMap V
  | [], _ => []
  | (k, v) :: rest, key =>
      if k = key then mapDelete rest key else (k, v) :: mapDelete rest key

/-- Keys of a Go map. -/
def mapKeys {V : Type} : GoMap V → List String
  | [] => []
  | (k, _) :: rest => k :: mapKeys rest

theorem mapLookup_delete_self {V : Type} (m : GoMap V) (k : String) :
    mapLookup (mapDelete m k) k = none := by
  induction m with
  | nil => rfl
  | cons e rest ih =>
      obtain ⟨k0, v0⟩ := e
      by_cases hk : k0 = k
      · simpa [mapDelete, hk] using ih
      · simpa [mapDelete, mapLookup, hk] using ih

theorem mapLookup_delete_ne {V : Type} (m : GoMap V) (k k' : String)
    (h : k' ≠ k) : mapLookup (mapDelete m k) k' = mapLookup m k' := by
  induction m with
  | nil => rfl
  | cons e rest ih =>
      obtain ⟨k0, v0⟩ := e
      by_cases hk : k0 = k
      · subst hk
        have hne : k0 ≠ k' := fun h2 => h (h2 ▸ rfl)
        simpa [mapDelete, mapLookup, hne] using ih
      · simp [mapDelete, mapLookup, hk, ih]

theorem mapLookup_insert_self {V : Type} (m : GoMap V) (k : String) (v : V) :
    mapLookup (mapInsert m k v) k = some v := by
  induction m with
  | nil => simp [mapInsert, mapLookup]
  | cons e rest ih =>
      obtain ⟨k0, v0⟩ := e
      by_cases hk : k0 = k
      · simp [mapInsert, mapLookup, hk]
      · simpa [mapInsert, mapLookup, hk] using ih

theorem mapLookup_insert_ne {V : Type} (m : GoMap V) (k k' : String) (v : V)
    (h : k' ≠ k) : mapLookup (mapInsert m k v) k' = mapLookup m k' := by
  have hkk : k ≠ k' := fun h2 => h h2.symm
  induction m with
  | nil => simp [mapInsert, mapLookup, hkk]
  | cons e rest ih =>
      obtain ⟨k0, v0⟩ := e
      by_cases hk : k0 = k
      · subst hk
        simp [mapInsert, mapLookup, hkk]
      · simp [mapInsert, mapLookup, hk, ih]

theorem mem_mapKeys_insert {V : Type} (m : GoMap V) (k a : String) (v : V) :
    a ∈ mapKeys (mapInsert m k v) ↔ a ∈ mapKeys m ∨ a = k := by
  induction m with
  | nil => simp [mapInsert, mapKeys]
  | cons e rest ih =>
      obtain ⟨k0, v0⟩ := e
      by_cases hk : k0 = k
      · subst hk
        simp [mapInsert, mapKeys]
        tauto
      · simp [mapInsert, mapKeys, hk, ih]
        tauto

theorem mem_mapKeys_delete {V : Type} (m : GoMap V) (k a : String) :
    a ∈ mapKeys (mapDelete m k) → a ∈ mapKeys m := by
  induction m with
  | nil => simp [mapDelete, mapKeys]
  | cons e rest ih =>
      obtain ⟨k0, v0⟩ := e
      by_cases hk : k0 = k
      · subst hk
        simp [mapDelete, mapKeys]
        intro h1
        exact Or.inr (ih h1)
      · simp [mapDelete, mapKeys, hk]
        rintro (h1 | h1)
        · exact Or.inl h1
        · exact Or.inr (ih h1)

theorem mapKeys_insert_nodup {V : Type} (m : GoMap V) (k : String) (v : V)
    (h : (mapKeys m).Nodup) : (mapKeys (mapInsert m k v)).Nodup := by
  induction m with
  | nil => simp [mapInsert, mapKeys]
  | cons e rest ih =>
      obtain ⟨k0, v0⟩ := e
      simp [mapKeys, List.nodup_cons] at h
      by_cases hk : k0 = k
      · subst hk
        simp [mapInsert, mapKeys, List.nodup_cons]
        exact h
      · simp [mapInsert, hk, mapKeys, List.nodup_cons]
        refine ⟨?_, ih h.2⟩
        intro hmem
        rcases (mem_mapKeys_insert rest k k0 v).1 hmem with h1 | h1
        · exact h.1 h1
        · exact hk h1

theorem mapKeys_delete_nodup {V : Type} (m : GoMap V) (k : String)
    (h : (mapKeys m).Nodup) : (mapKeys (mapDelete m k)).Nodup := by
  induction m with
  | nil => simp [mapDelete, mapKeys]
  | cons e rest ih =>
      obtain ⟨k0, v0⟩ := e
      simp [mapKeys, List.nodup_cons] at h
      by_cases hk : k0 = k
      · simpa [mapDelete, hk] using ih h.2
      · simp [mapDelete, mapKeys, hk, List.nodup_cons]
        exact ⟨fun hmem => h.1 (mem_mapKeys_delete rest k k0 hmem), ih h.2⟩

/-! ## Pending-call table (`AgentConn.pending`, `session.pending`)

`pending map[string]chan []byte` guarded by `pendMu`; each slot is a
buffered channel of capacity one. -/

/-- The pending-call table of one connection. -/
abbrev Pending := GoMap Chan

/-- `AgentConn.removePending` (and the identical `session.removePending`):
under the lock, read the slot for `idKey`; when present, delete it from the
table and hand it back, otherwise leave the table unchanged and return
nothing. -/
def removePending (p : Pending) (idKey : String) : Option Chan × Pending :=
  match mapLookup p idKey with
  | none => (none, p)
  | some ch => (some ch, mapDelete p idKey)

/-! ## Management-connection read loop (`AgentConn.readLoop`) -/

/-- The decoded form of one inbound message, holding exactly the keys the
read loop inspects of the `map[string]json.RawMessage` envelope: the raw
values under `_control`, `id`, `method` and `schema` when present. -/
structure Env where
  control : Option RawMsg
  id : Option RawMsg
  method : Option RawMsg
  schema : Option RawMsg
deriving Repr, DecidableEq

/-- `json.Unmarshal(raw, &s)` for a string target: succeeds exactly when the
raw value is a JSON string, yielding its contents (escape sequences do not
occur in the control types this code exchanges). -/
def decodeJSONString (raw : RawMsg) : Option String :=
  if raw.length ≥ 2 ∧ raw.front = '"' ∧ raw.back = '"' then
    some ((raw.drop 1).dropRight 1)
  else
    none

/-- What one iteration of `AgentConn.readLoop` did with an inbound message,
after a successful transport read. -/
inductive ReadEvent where
  /-- `json.Unmarshal` of the envelope failed: logged, dropped, loop goes on. -/
  | droppedMalformed
  /-- `_control` present but its value is not a JSON string: dropped. -/
  | controlDropped
  /-- `_control` decoded: dispatched to `handleControl` with this type. -/
  | controlHandled (ctype : String) (schema : Option RawMsg)
  /-- Response with a pending match: the payload was sent on the slot's
  channel, which was then closed, and the slot removed. -/
  | responseDelivered (idKey : String) (ch : Chan) (data : RawMsg)
  /-- `id` present but no pending slot: silently dropped. -/
  | responseDropped (idKey : String)
  /-- `method` present, no `id`: fanned out via `Hub.broadcast`. -/
  | notificationBroadcast (data : RawMsg)
  /-- Neither `id` nor `method`: the loop falls through and reads again. -/
  | ignored
deriving Repr, DecidableEq

/-- One iteration of `AgentConn.readLoop` on a successfully-read message
`data`, whose envelope decode result is `env` (`none` when
`json.Unmarshal` failed). Returns the updated pending table and the event
describing what the iteration did. Branch order is the source's: control
frames first, then the `id` branch, then the `method` branch. -/
def readLoopStep (p : Pending) (env : Option Env) (data : RawMsg) :
    Pending × ReadEvent :=
  match env with
  | none => (p, .droppedMalformed)
  | some e =>
      match e.control with
      | some ctrlRaw =>
          match decodeJSONString ctrlRaw with
          | none => (p, .controlDropped)
          | some ctype => (p, .controlHandled ctype e.schema)
      | none =>
          match e.id with
          | some idRaw =>
              if idRaw.length > 0 then
                match removePending p idRaw with
                | (some ch, p1) => (p1, .responseDelivered idRaw ch data)
                | (none, p1) => (p1, .responseDropped idRaw)
              else
                match e.method with
                | some _ => (p, .notificationBroadcast data)
                | none => (p, .ignored)
          | none =>
              match e.method with
              | some _ => (p, .notificationBroadcast data)
              | none => (p, .ignored)

/-! ## Connection hub (`Hub`)

`agents map[string]*AgentConn` and `clients map[string]map[*ClientConn]struct{}`,
both guarded by `h.mu`. Connections are identified by numeric tokens; the
inner viewer set is kept as a duplicate-free list in Go-map iteration order. -/

/-- Connection identity token: stands for one `*AgentConn` / `*ClientConn`
pointer value. -/
abbrev Conn := Nat

/-- The hub's two registries. -/
structure HubState where
  agents : GoMap Conn
  clients : GoMap (List Conn)
deriving Repr, DecidableEq

/-- Side effects a hub operation performs, in program order. -/
inductive HubEvent where
  /-- `existing.Close(StatusPolicyViolation, reason)` on the superseded agent. -/
  | closedAgent (conn : Conn) (reason : String)
  /-- `h.agents[serverID] = agent`. -/
  | installedAgent (serverID : String) (conn : Conn)
  /-- The `UPDATE servers SET connected_at = now()` collaborator call. -/
  | markConnected (serverID : String)
  /-- `go agent.readLoop()`. -/
  | startReadLoop (conn : Conn)
  /-- The `UPDATE servers SET connected_at = NULL` collaborator call. -/
  | markDisconnected (serverID : String)
  /-- One viewer received the broadcast payload (`client.Send` returned nil). -/
  | deliveredTo (conn : Conn) (payload : RawMsg)
  /-- One viewer's `Send` failed: it was closed and removed. -/
  | viewerSendFailed (conn : Conn)
deriving Repr, DecidableEq

/-- `Hub.RegisterAgent`: under the lock, force-close any existing current
connection for `serverID` with reason `"replaced"`, then install the new
one; afterwards mark the server connected and start the read loop. -/
def registerAgent (s : HubState) (serverID : String) (conn : Conn) :
    HubState × List HubEvent :=
  let closeEvents :=
    match mapLookup s.agents serverID with
    | some existing => [HubEvent.closedAgent existing "replaced"]
    | none => []
  ({ s with agents := mapInsert s.agents serverID conn },
   closeEvents ++
     [HubEvent.installedAgent serverID conn, HubEvent.markConnected serverID,
      HubEvent.startReadLoop conn])

/-- `Hub.AgentFor`. -/
def agentFor (s : HubState) (serverID : String) : Option Conn :=
  mapLookup s.agents serverID

/-- `Hub.agentClosed`, invoked by a failing read loop: deletes the registry
entry for `serverID` (unconditionally — the source has no check that the
closing connection is still the registered one), then marks the server
disconnected. -/
def agentClosed (s : HubState) (serverID : String) :
    HubState × List HubEvent :=
  ({ s with agents := mapDelete s.agents serverID },
   [HubEvent.markDisconnected serverID])

/-- `Hub.RegisterClient`: add the viewer to the (possibly fresh) set for
`serverID`. -/
def registerClient (s : HubState) (serverID : String) (client : Conn) :
    HubState :=
  let cs := (mapLookup s.clients serverID).getD []
  { s with clients := mapInsert s.clients serverID (cs ++ [client]) }

/-- `Hub.removeClient`: delete the viewer from the set for `serverID`; when
that empties the set, drop the set itself. -/
def removeClient (s : HubState) (serverID : String) (client : Conn) :
    HubState :=
  match mapLookup s.clients serverID with
  | none => s
  | some cs =>
      let remaining := cs.filter (fun c => c ≠ client)
      if remaining = [] then
        { s with clients := mapDelete s.clients serverID }
      else
        { s with clients := mapInsert s.clients serverID remaining }

/-- The per-viewer delivery part of `Hub.broadcast`, after the snapshot was
taken: for each snapshotted viewer in order, attempt `client.Send` (its
outcome given by the oracle `sendFails`); on failure close the viewer and
`removeClient` it, otherwise record the delivery. -/
def broadcastDeliver (serverID : String) (payload : RawMsg)
    (sendFails : Conn → Bool) :
    List Conn → HubState → HubState × List HubEvent
  | [], s => (s, [])
  | client :: rest, s =>
      if sendFails client then
        let s1 := removeClient s serverID client
        let (s2, evs) := broadcastDeliver serverID payload sendFails rest s1
        (s2, HubEvent.viewerSendFailed client :: evs)
      else
        let (s2, evs) := broadcastDeliver serverID payload sendFails rest s
        (s2, HubEvent.deliveredTo client payload :: evs)

/-- `Hub.broadcast`: snapshot the viewer set for `serverID` under the read
lock, release it, then deliver to each snapshotted viewer independently. -/
def broadcast (s : HubState) (serverID : String) (payload : RawMsg)
    (sendFails : Conn → Bool) : HubState × List HubEvent :=
  let snapshot := (mapLookup s.clients serverID).getD []
  broadcastDeliver serverID payload sendFails snapshot s

/-! ## Call issuance and teardown (`AgentConn.Call`, `AgentConn.failPending`) -/

/-- Which arm of `Call`'s final `select` fired: the context deadline, the
connection's one-shot closed signal, or a value arriving on the response
channel (`none` models the nil payload `failPending` pushes). -/
inductive SelectOutcome where
  | ctxDone
  | connClosed
  | response (data : Option RawMsg)
deriving Repr, DecidableEq

/-- Result of `AgentConn.Call` as seen by the caller. -/
inductive CallResult where
  /-- `ctx.Err()`: the deadline elapsed (or the caller's context was
  cancelled) with no matching response. -/
  | errTimeout
  /-- `errors.New("agent disconnected")`. -/
  | errDisconnected
  | ok (data : RawMsg)
deriving Repr, DecidableEq

/-- The wait phase of `AgentConn.Call` for a call whose pending slot is
already registered under `idKey`: resolves the `select` according to
`outcome`, removing the pending entry on the deadline and closed arms
(the response arm's entry was already removed by the read loop before it
delivered). Returns the pending table as `Call` leaves it and the
caller-visible result. -/
def callAwait (p : Pending) (idKey : String) (outcome : SelectOutcome) :
    Pending × CallResult :=
  match outcome with
  | .ctxDone => ((removePending p idKey).2, .errTimeout)
  | .connClosed => ((removePending p idKey).2, .errDisconnected)
  | .response none => (p, .errDisconnected)
  | .response (some data) => (p, .ok data)

/-- `AgentConn.failPending`: under the lock, delete every outstanding slot
and push a nil payload into its channel before closing it. Returns the
emptied table and the `(id, channel)` pairs that were failed, in table
order. -/
def failPending (p : Pending) : Pending × List (String × Chan) :=
  ([], p)

/-! ## Agent supervisor: backoff and jitter (`agents/mc-agent` main)

Durations are `time.Duration`: signed 64-bit nanosecond counts, embedded as
`Int` (every value the supervisor manipulates stays far below 2^63, so
machine overflow never occurs on these paths). -/

/-- `time.Second` in nanoseconds. -/
def second : Int := 1000000000

/-- Go's `time.Duration(f)` conversion of a nonnegative float product:
truncation toward zero. The float64 arithmetic `float64(current) *
multiplier` is exact for the magnitudes involved (products below 2^53), so
the rational product captures it. -/
def f64toDuration (q : ℚ) : Int := q.num.tdiv (q.den : Int)

/-- `nextBackoff(current, multiplier, max)`: normalise a nonpositive current
to one second and an out-of-range multiplier to 2.0, scale, clamp at `max`
when `max` is positive, and fall back to `current` if the scaled value
degenerated to nonpositive. -/
def nextBackoff (current : Int) (multiplier : ℚ) (max : Int) : Int :=
  let cur := if current ≤ 0 then second else current
  let mult := if multiplier < 11 / 10 then 2 else multiplier
  let next := f64toDuration ((cur : ℚ) * mult)
  let clamped := if max > 0 ∧ next > max then max else next
  if clamped ≤ 0 then cur else clamped

/-- `applyJitter(base, jitter)`: with a nonpositive jitter ceiling the base
is returned unchanged; otherwise the uniformly random draw
`rand.Int(rand.Reader, jitter)` — supplied here as the oracle `r`, which
the crypto source guarantees to lie in `[0, jitter)` — is added to the
base. -/
def applyJitter (base jitter r : Int) : Int :=
  if jitter ≤ 0 then base else base + r

/-- The supervisor's backoff value as entered into its n-th consecutive
failing iteration: `main` initialises `backoff` to `cfg.BackoffInitial`
(defaulting a nonpositive value to one second) and advances it with
`nextBackoff` after each failed session. With a zero jitter ceiling the
n-th reconnect wait equals this value. -/
def backoffSeq (initial : Int) (multiplier : ℚ) (cap : Int) : Nat → Int
  | 0 => if initial ≤ 0 then second else initial
  | n + 1 => nextBackoff (backoffSeq initial multiplier cap n) multiplier cap

/-! ## Telemetry recorder (`telemetry`) -/

/-- The telemetry counters the supervisor loop touches (`sessions`,
`failures`, `lastError`, `lastSessionDuration` of the Go `telemetry`
struct; the dial/discover/forward counters and the ticker are independent
of the claims settled here and are omitted). -/
structure Telemetry where
  sessions : Nat
  failures : Nat
  lastError : String
  lastSessionDuration : Int
deriving Repr, DecidableEq

/-- `telemetry.recordSessionStart`. -/
def recordSessionStart (t : Telemetry) : Telemetry :=
  { t with sessions := t.sessions + 1 }

/-- `telemetry.recordSessionFailure(duration, err)`: bumps the failure
counter, overwrites the last session duration, and overwrites the
last-error string when the error is non-nil. -/
def recordSessionFailure (t : Telemetry) (duration : Int)
    (errMsg : Option String) : Telemetry :=
  { t with
      failures := t.failures + 1
      lastSessionDuration := duration
      lastError := errMsg.getD t.lastError }

/-- `telemetry.recordSessionSuccess(duration)`: overwrites the last session
duration and clears the last-error string. -/
def recordSessionSuccess (t : Telemetry) (duration : Int) : Telemetry :=
  { t with lastSessionDuration := duration, lastError := "" }

/-! ## Supervisor loop (`main`'s reconnect for-loop) -/

/-- How one `runOnce` session ended, together with its measured duration:
`canceled` is a non-nil error with the outer context cancelled (or the
error being `context.Canceled`); `failed` is any other non-nil error; a
nil error is `succeeded`. The bridge pipes only ever return non-nil errors,
so a session that bridged and then died always lands in one of the first
two. -/
inductive SessionOutcome where
  | canceled (errMsg : String) (duration : Int)
  | failed (errMsg : String) (duration : Int)
  | succeeded (duration : Int)
deriving Repr, DecidableEq

/-- What the loop body decides to do next. -/
inductive LoopAction where
  /-- `return`: the loop exits with no further attempt. -/
  | stopLoop
  /-- Sleep `wait`, then re-enter the loop for another dial. -/
  | retryAfter (wait : Int)
  /-- Re-enter the loop immediately. -/
  | continueLoop
deriving Repr, DecidableEq

/-- The supervisor's mutable loop state. -/
structure SupervisorState where
  metrics : Telemetry
  backoff : Int
  attempt : Nat
deriving Repr, DecidableEq

/-- One iteration of `main`'s reconnect loop: record the session start, run
the session (its outcome supplied by `outcome`), then either stop on
cancellation (after recording the failure), schedule a jittered retry and
advance the backoff on failure, or reset backoff and attempt counters on a
nil-error return. `r` is the random jitter draw. -/
def mainIter (initial : Int) (multiplier : ℚ) (cap jitter r : Int)
    (st : SupervisorState) (outcome : SessionOutcome) :
    SupervisorState × LoopAction :=
  let m := recordSessionStart st.metrics
  match outcome with
  | .canceled msg d =>
      ({ st with metrics := recordSessionFailure m d (some msg) },
       .stopLoop)
  | .failed msg d =>
      let m1 := recordSessionFailure m d (some msg)
      let wait := applyJitter st.backoff jitter r
      ({ metrics := m1
         backoff := nextBackoff st.backoff multiplier cap
         attempt := st.attempt + 1 },
       .retryAfter wait)
  | .succeeded d =>
      ({ metrics := recordSessionSuccess m d
         backoff := if initial ≤ 0 then second else initial
         attempt := 1 },
       .continueLoop)

/-! ## Bridge session relay pipes (`session`) -/

/-- `session.registerPending`: allocate the slot for a self-issued call id
(`callMinecraft` keys these as `"agent:" + uuid`, so they can never collide
with control-plane-issued ids). -/
def registerPending (p : Pending) (idKey : String) (ch : Chan) : Pending :=
  mapInsert p idKey ch

/-- The body of `session.pipeAPIToMC` for one frame: the bytes read from
the control-plane transport are written to the managed endpoint verbatim. -/
def pipeAPIToMCStep (data : RawMsg) : RawMsg := data

/-- What `session.pipeMCToAPI` did with one frame from the managed
endpoint. -/
inductive MCAction where
  /-- The frame resolved a self-issued pending call: its payload was pushed
  into that call's channel and nothing was forwarded. -/
  | deliveredToCall (ch : Chan) (data : RawMsg)
  /-- The frame was written to the control-plane transport verbatim. -/
  | forwardedToAPI (data : RawMsg)
deriving Repr, DecidableEq

/-- `session.handleMCMessage`: decode the frame (decode result supplied as
`parsed`; an undecodable frame is logged and reported unhandled); when an
`id` key with nonempty raw bytes matches a pending self-issued call, remove
that slot and deliver the payload to it, reporting the frame handled. -/
def handleMCMessage (p : Pending) (parsed : Option Env) (data : RawMsg) :
    Pending × Option (Chan × RawMsg) :=
  match parsed with
  | none => (p, none)
  | some env =>
      match env.id with
      | some idRaw =>
          if idRaw.length > 0 then
            match removePending p idRaw with
            | (some ch, p1) => (p1, some (ch, data))
            | (none, p1) => (p1, none)
          else (p, none)
      | none => (p, none)

/-- The body of `session.pipeMCToAPI` for one frame: consult
`handleMCMessage`; a handled frame is consumed, any other frame is written
to the control-plane transport verbatim. -/
def pipeMCToAPIStep (p : Pending) (parsed : Option Env) (data : RawMsg) :
    Pending × MCAction :=
  match handleMCMessage p parsed data with
  | (p1, some (ch, d)) => (p1, .deliveredToCall ch d)
  | (p1, none) => (p1, .forwardedToAPI data)

/-! ## Auxiliary lemmas -/

theorem mapDelete_key_ne {V : Type} (m : GoMap V) (k : String) :
    ∀ e ∈ mapDelete m k, e.1 ≠ k := by
  induction m with
  | nil => intro e he; simp [mapDelete] at he
  | cons hd rest ih =>
      obtain ⟨k0, v0⟩ := hd
      intro e he
      by_cases hk : k0 = k
      · exact ih e (by simpa [mapDelete, hk] using he)
      · rcases (by simpa [mapDelete, hk] using he : e = (k0, v0) ∨ e ∈ mapDelete rest k) with
          h1 | h1
        · simpa [h1] using hk
        · exact ih e h1

/-! ## Claim theorems -/

/-- C1: a pending-call slot on a management connection is resolved at most
once. The first inbound response frame carrying a pending id removes the
slot and delivers the payload on its channel — which the caller blocked in
`Call` receives as a successful result — and a second frame carrying the
same id finds no slot and is dropped as a no-op: the table is left
untouched and no delivery, error or other action occurs. -/
theorem pendingCall_single_delivery
    (p : Pending) (e e2 : Env) (data data2 : RawMsg) (i : String) (ch : Chan)
    (hc : e.control = none) (hi : e.id = some i) (hlen : i.length > 0)
    (hp : mapLookup p i = some ch)
    (hc2 : e2.control = none) (hi2 : e2.id = some i) :
    readLoopStep p (some e) data
        = (mapDelete p i, .responseDelivered i ch data)
    ∧ callAwait (mapDelete p i) i (.response (some data))
        = (mapDelete p i, .ok data)
    ∧ readLoopStep (mapDelete p i) (some e2) data2
        = (mapDelete p i, .responseDropped i) := by
  refine ⟨?_, rfl, ?_⟩
  · simp [readLoopStep, hc, hi, hlen, removePending, hp]
  · simp [readLoopStep, hc2, hi2, hlen, removePending, mapLookup_delete_self]

/-- C1 witness: a concrete table with one pending call, hit by two response
frames carrying the same id. -/
theorem pendingCall_single_delivery_witness :
    readLoopStep [("\"42\"", 3)]
        (some ⟨none, some "\"42\"", none, none⟩) "resp-one"
      = ([], .responseDelivered "\"42\"" 3 "resp-one")
    ∧ callAwait [] "\"42\"" (.response (some "resp-one")) = ([], .ok "resp-one")
    ∧ readLoopStep [] (some ⟨none, some "\"42\"", none, none⟩) "resp-two"
      = ([], .responseDropped "\"42\"") := by
  have h := pendingCall_single_delivery [("\"42\"", 3)]
    ⟨none, some "\"42\"", none, none⟩ ⟨none, some "\"42\"", none, none⟩
    "resp-one" "resp-two" "\"42\"" 3 rfl rfl (by decide) (by decide) rfl rfl
  simpa [mapDelete] using h

/-- C10: an inbound frame on a management connection that carries both an
`id` and a `method` (a request under the frame invariant) and is not a
control frame is classified by the read loop's branch order as a response:
with no pending call matching the id it is silently dropped — the pending
table is unchanged and the frame is neither broadcast to viewers nor
answered, so an agent cannot issue calls to the control plane over this
path. -/
theorem request_frame_treated_as_response
    (p : Pending) (e : Env) (data : RawMsg) (i m : String)
    (hc : e.control = none) (hi : e.id = some i) (hlen : i.length > 0)
    (hm : e.method = some m) (hp : mapLookup p i = none) :
    readLoopStep p (some e) data = (p, .responseDropped i)
    ∧ (readLoopStep p (some e) data).2 ≠ .notificationBroadcast data := by
  constructor
  · simp [readLoopStep, hc, hi, hlen, removePending, hp]
  · simp [readLoopStep, hc, hi, hlen, removePending, hp]

/-- C10 witness: a request frame (`id` and `method` both present) with no
matching pending call is dropped, not broadcast. -/
theorem request_frame_treated_as_response_witness :
    readLoopStep [("\"9\"", 5)]
        (some ⟨none, some "\"7\"", some "\"minecraft:server/status\"", none⟩)
        "req-data"
      = ([("\"9\"", 5)], .responseDropped "\"7\"") := by
  have h := request_frame_treated_as_response [("\"9\"", 5)]
    ⟨none, some "\"7\"", some "\"minecraft:server/status\"", none⟩
    "req-data" "\"7\"" "\"minecraft:server/status\"" rfl rfl (by decide) rfl
    (by decide)
  exact h.1

/-- C3 (code bug): `Hub.agentClosed` deletes the registry entry for the
server id unconditionally — it never checks that the closing connection is
still the registered one. After connection 1 for `"srv-1"` is superseded by
connection 2 (which `RegisterAgent` force-closes connection 1 for), the
superseded connection's read loop deterministically exits and calls
`agentClosed`, which removes the newer connection 2 from the registry even
though it is live and current. -/
theorem agentClosed_removes_successor :
    mapLookup (registerAgent (registerAgent ⟨[], []⟩ "srv-1" 1).1 "srv-1" 2).1.agents
        "srv-1" = some 2
    ∧ (registerAgent (registerAgent ⟨[], []⟩ "srv-1" 1).1 "srv-1" 2).2.head?
        = some (.closedAgent 1 "replaced")
    ∧ mapLookup
        (agentClosed (registerAgent (registerAgent ⟨[], []⟩ "srv-1" 1).1 "srv-1" 2).1
          "srv-1").1.agents "srv-1" = none := by
  decide

/-- C4: a call whose deadline elapses with no matching response returns the
timeout error (`ctx.Err()`), its pending entry is removed at expiry, every
other in-flight entry is untouched, and a subsequent teardown
(`failPending`) fails exactly the remaining entries — the already-removed
id is not among them. -/
theorem call_timeout_isolated
    (p : Pending) (i : String) (ch : Chan)
    (hp : mapLookup p i = some ch) :
    (callAwait p i .ctxDone).2 = .errTimeout
    ∧ mapLookup (callAwait p i .ctxDone).1 i = none
    ∧ (∀ j, j ≠ i → mapLookup (callAwait p i .ctxDone).1 j = mapLookup p j)
    ∧ (failPending (callAwait p i .ctxDone).1).1 = []
    ∧ (failPending (callAwait p i .ctxDone).1).2 = (callAwait p i .ctxDone).1
    ∧ ∀ entry ∈ (failPending (callAwait p i .ctxDone).1).2, entry.1 ≠ i := by
  have hrm : (callAwait p i .ctxDone).1 = mapDelete p i := by
    simp [callAwait, removePending, hp]
  refine ⟨rfl, ?_, ?_, rfl, rfl, ?_⟩
  · rw [hrm]; exact mapLookup_delete_self p i
  · intro j hj; rw [hrm]; exact mapLookup_delete_ne p i j hj
  · intro entry hmem
    rw [show (failPending (callAwait p i .ctxDone).1).2 = (callAwait p i .ctxDone).1 from rfl,
      hrm] at hmem
    exact mapDelete_key_ne p i entry hmem

/-- C4 witness: two in-flight calls; the first times out, the second
survives and is the only entry failed by the later teardown. -/
theorem call_timeout_isolated_witness :
    (callAwait [("\"a\"", 1), ("\"b\"", 2)] "\"a\"" .ctxDone).2 = .errTimeout
    ∧ mapLookup (callAwait [("\"a\"", 1), ("\"b\"", 2)] "\"a\"" .ctxDone).1 "\"a\"" = none
    ∧ mapLookup (callAwait [("\"a\"", 1), ("\"b\"", 2)] "\"a\"" .ctxDone).1 "\"b\""
        = mapLookup [("\"a\"", 1), ("\"b\"", 2)] "\"b\""
    ∧ (failPending (callAwait [("\"a\"", 1), ("\"b\"", 2)] "\"a\"" .ctxDone).1).2
        = (callAwait [("\"a\"", 1), ("\"b\"", 2)] "\"a\"" .ctxDone).1 := by
  have h := call_timeout_isolated [("\"a\"", 1), ("\"b\"", 2)] "\"a\"" 1 (by decide)
  exact ⟨h.1, h.2.1, h.2.2.1 "\"b\"" (by decide), h.2.2.2.2.1⟩

/-- C2: registering a management connection for a server id that already has
a current one force-closes the previous connection strictly before the new
one is installed (the close is the first effect of the event sequence,
preceding the install), the new connection is the registered one
afterwards, registrations for other ids are untouched, and the registry
keeps at most one entry per server id (unique keys are preserved), so two
management connections are never simultaneously current for one id. -/
theorem registerAgent_supersedes
    (s : HubState) (serverID : String) (newConn oldConn : Conn)
    (hcur : mapLookup s.agents serverID = some oldConn)
    (hnodup : (mapKeys s.agents).Nodup) :
    (registerAgent s serverID newConn).2
      = [.closedAgent oldConn "replaced", .installedAgent serverID newConn,
         .markConnected serverID, .startReadLoop newConn]
    ∧ mapLookup (registerAgent s serverID newConn).1.agents serverID
        = some newConn
    ∧ (∀ sid, sid ≠ serverID →
        mapLookup (registerAgent s serverID newConn).1.agents sid
          = mapLookup s.agents sid)
    ∧ (mapKeys (registerAgent s serverID newConn).1.agents).Nodup := by
  refine ⟨?_, ?_, ?_, ?_⟩
  · simp [registerAgent, hcur]
  · simpa [registerAgent] using mapLookup_insert_self s.agents serverID newConn
  · intro sid hsid
    simpa [registerAgent] using
      mapLookup_insert_ne s.agents serverID sid newConn hsid
  · simpa [registerAgent] using
      mapKeys_insert_nodup s.agents serverID newConn hnodup

/-- C2 witness: a hub with a current connection for `"srv-1"` and an
unrelated one for `"srv-2"`; registering a replacement closes the old one
first and leaves `"srv-2"` alone. -/
theorem registerAgent_supersedes_witness :
    (registerAgent ⟨[("srv-1", 1), ("srv-2", 4)], []⟩ "srv-1" 2).2
      = [.closedAgent 1 "replaced", .installedAgent "srv-1" 2,
         .markConnected "srv-1", .startReadLoop 2]
    ∧ mapLookup (registerAgent ⟨[("srv-1", 1), ("srv-2", 4)], []⟩ "srv-1" 2).1.agents
        "srv-1" = some 2
    ∧ mapLookup (registerAgent ⟨[("srv-1", 1), ("srv-2", 4)], []⟩ "srv-1" 2).1.agents
        "srv-2" = mapLookup [("srv-1", 1), ("srv-2", 4)] "srv-2"
    ∧ (mapKeys (registerAgent ⟨[("srv-1", 1), ("srv-2", 4)], []⟩ "srv-1" 2).1.agents).Nodup := by
  have h := registerAgent_supersedes ⟨[("srv-1", 1), ("srv-2", 4)], []⟩
    "srv-1" 2 1 (by decide) (by decide)
  exact ⟨h.1, h.2.1, h.2.2.1 "srv-2" (by decide), h.2.2.2⟩

/-- The events `broadcastDeliver` emits are one per snapshotted viewer, in
snapshot order, independent of the evolving registry state: a failure
event for viewers whose send fails, a delivery otherwise. -/
theorem broadcastDeliver_events (sid : String) (payload : RawMsg)
    (sendFails : Conn → Bool) :
    ∀ (l : List Conn) (s : HubState),
    (broadcastDeliver sid payload sendFails l s).2
      = l.map (fun c => if sendFails c then HubEvent.viewerSendFailed c
          else HubEvent.deliveredTo c payload) := by
  intro l
  induction l with
  | nil => intro s; rfl
  | cons c rest ih =>
      intro s
      by_cases hc : sendFails c = true
      · simp [broadcastDeliver, hc, ih]
      · simp only [Bool.not_eq_true] at hc
        simp [broadcastDeliver, hc, ih]

/-- The registry state `broadcastDeliver` leaves behind is the fold of
`removeClient` over the failing snapshotted viewers. -/
theorem broadcastDeliver_state (sid : String) (payload : RawMsg)
    (sendFails : Conn → Bool) :
    ∀ (l : List Conn) (s : HubState),
    (broadcastDeliver sid payload sendFails l s).1
      = l.foldl (fun st c => if sendFails c then removeClient st sid c else st) s := by
  intro l
  induction l with
  | nil => intro s; rfl
  | cons c rest ih =>
      intro s
      by_cases hc : sendFails c = true
      · simp [broadcastDeliver, hc, ih]
      · simp only [Bool.not_eq_true] at hc
        simp [broadcastDeliver, hc, ih]

theorem foldl_removeClient_skip (sid : String) (sendFails : Conn → Bool) :
    ∀ (l : List Conn) (s : HubState), (∀ c ∈ l, sendFails c = false) →
    l.foldl (fun st c => if sendFails c then removeClient st sid c else st) s
      = s := by
  intro l
  induction l with
  | nil => intro s _; rfl
  | cons c rest ih =>
      intro s hall
      have hc : sendFails c = false := hall c (by simp)
      simp only [List.foldl_cons, hc, Bool.false_eq_true, if_false]
      exact ih s (fun d hd => hall d (by simp [hd]))

/-- With exactly one failing viewer in a duplicate-free snapshot, the fold
collapses to a single `removeClient` of that viewer. -/
theorem foldl_removeClient_single (sid : String) (sendFails : Conn → Bool)
    (cs : List Conn) (f : Conn) (hnodup : cs.Nodup) (hf : f ∈ cs)
    (hfail : sendFails f = true)
    (honly : ∀ c ∈ cs, c ≠ f → sendFails c = false) (s : HubState) :
    cs.foldl (fun st c => if sendFails c then removeClient st sid c else st) s
      = removeClient s sid f := by
  obtain ⟨l1, l2, rfl⟩ := List.append_of_mem hf
  rcases List.nodup_append.mp hnodup with ⟨hn1, hn2, hdisj⟩
  have hfl1 : f ∉ l1 := fun hmem => hdisj hmem (by simp)
  have hfl2 : f ∉ l2 := (List.nodup_cons.mp hn2).1
  rw [List.foldl_append]
  rw [foldl_removeClient_skip sid sendFails l1 s
    (fun c hc => honly c (List.mem_append_left _ hc)
      (fun hcf => hfl1 (hcf ▸ hc)))]
  simp only [List.foldl_cons, hfail, if_true]
  exact foldl_removeClient_skip sid sendFails l2 (removeClient s sid f)
    (fun c hc => honly c (List.mem_append_right _ (by simp [hc]))
      (fun hcf => hfl2 (hcf ▸ hc)))

theorem count_delivered_zero (payload : RawMsg) (sendFails : Conn → Bool)
    (c : Conn) :
    ∀ (l : List Conn), c ∉ l →
    (l.map (fun x => if sendFails x then HubEvent.viewerSendFailed x
        else HubEvent.deliveredTo x payload)).count
      (HubEvent.deliveredTo c payload) = 0 := by
  intro l hcl
  refine List.count_eq_zero.mpr ?_
  intro hmem
  rcases List.mem_map.mp hmem with ⟨x, hx, hev⟩
  by_cases hfx : sendFails x = true
  · simp [hfx] at hev
  · simp only [Bool.not_eq_true] at hfx
    simp [hfx] at hev
    exact hcl (hev ▸ hx)

/-- In the event list of a duplicate-free snapshot, each viewer whose send
succeeds is the target of exactly one delivery event. -/
theorem count_delivered_once (payload : RawMsg) (sendFails : Conn → Bool) :
    ∀ (cs : List Conn), cs.Nodup → ∀ c ∈ cs, sendFails c = false →
    (cs.map (fun x => if sendFails x then HubEvent.viewerSendFailed x
        else HubEvent.deliveredTo x payload)).count
      (HubEvent.deliveredTo c payload) = 1 := by
  intro cs
  induction cs with
  | nil => intro _ c hc; simp at hc
  | cons hd rest ih =>
      intro hnodup c hc hfc
      rcases List.nodup_cons.mp hnodup with ⟨hhd, hrest⟩
      by_cases hchd : c = hd
      · subst hchd
        simp only [List.map_cons, hfc, Bool.false_eq_true, if_false]
        rw [List.count_cons_self]
        rw [count_delivered_zero payload sendFails c rest hhd]
      · have hcrest : c ∈ rest := by
          rcases List.mem_cons.mp hc with h1 | h1
          · exact absurd h1 hchd
          · exact h1
        have hne : (if sendFails hd then HubEvent.viewerSendFailed hd
            else HubEvent.deliveredTo hd payload)
            ≠ HubEvent.deliveredTo c payload := by
          by_cases hfhd : sendFails hd = true
          · simp [hfhd]
          · simp only [Bool.not_eq_true] at hfhd
            simp [hfhd]
            intro h1
            exact absurd h1.symm hchd
        simp only [List.map_cons]
        rw [List.count_cons_of_ne (fun h => hne h.symm)]
        exact ih hrest c hcrest hfc

/-- C5: broadcasting to the viewers registered for a server id when exactly
one snapshotted viewer's send fails: the event sequence is computed from
the snapshot taken before any send; every other snapshotted viewer is the
target of exactly one delivery event; the final registry is a single
`removeClient` of the failing viewer — so only it is removed, the rest of
the set and every other server id's set are untouched. -/
theorem broadcast_single_failure_isolated
    (s : HubState) (sid : String) (payload : RawMsg) (sendFails : Conn → Bool)
    (cs : List Conn) (f : Conn)
    (hcs : mapLookup s.clients sid = some cs)
    (hnodup : cs.Nodup)
    (hf : f ∈ cs) (hfail : sendFails f = true)
    (honly : ∀ c ∈ cs, c ≠ f → sendFails c = false) :
    (broadcast s sid payload sendFails).2
      = cs.map (fun c => if sendFails c then HubEvent.viewerSendFailed c
          else HubEvent.deliveredTo c payload)
    ∧ (∀ c ∈ cs, c ≠ f →
        ((broadcast s sid payload sendFails).2).count
          (HubEvent.deliveredTo c payload) = 1)
    ∧ (broadcast s sid payload sendFails).1 = removeClient s sid f
    ∧ mapLookup (broadcast s sid payload sendFails).1.clients sid
        = (if cs.filter (fun c => c ≠ f) = [] then none
           else some (cs.filter (fun c => c ≠ f)))
    ∧ (∀ sid2, sid2 ≠ sid →
        mapLookup (broadcast s sid payload sendFails).1.clients sid2
          = mapLookup s.clients sid2) := by
  have hsnap : (mapLookup s.clients sid).getD [] = cs := by rw [hcs]; rfl
  have hev : (broadcast s sid payload sendFails).2
      = cs.map (fun c => if sendFails c then HubEvent.viewerSendFailed c
          else HubEvent.deliveredTo c payload) := by
    rw [broadcast, hsnap]
    exact broadcastDeliver_events sid payload sendFails cs s
  have hst : (broadcast s sid payload sendFails).1 = removeClient s sid f := by
    rw [broadcast, hsnap, broadcastDeliver_state sid payload sendFails cs s]
    exact foldl_removeClient_single sid sendFails cs f hnodup hf hfail honly s
  refine ⟨hev, ?_, hst, ?_, ?_⟩
  · intro c hc hcf
    rw [hev]
    exact count_delivered_once payload sendFails cs hnodup c hc
      (honly c hc hcf)
  · rw [hst, removeClient, hcs]
    by_cases hrem : cs.filter (fun c => c ≠ f) = []
    · simp only [hrem, if_true, if_pos rfl]
      exact mapLookup_delete_self s.clients sid
    · simp only [hrem, if_false, if_neg hrem]
      exact mapLookup_insert_self s.clients sid _
  · intro sid2 hsid2
    rw [hst, removeClient, hcs]
    by_cases hrem : cs.filter (fun c => c ≠ f) = []
    · simp only [hrem, if_pos rfl]
      exact mapLookup_delete_ne s.clients sid sid2 hsid2
    · simp only [if_neg hrem]
      exact mapLookup_insert_ne s.clients sid sid2 _ hsid2

/-- C5 witness: three viewers for `"srv-1"` of which viewer 2 fails, plus an
unrelated server id. Viewers 1 and 3 each receive the payload exactly once
and only viewer 2 is removed. -/
theorem broadcast_single_failure_isolated_witness :
    (broadcast ⟨[], [("srv-1", [1, 2, 3]), ("srv-2", [9])]⟩ "srv-1" "tick"
        (fun c => c = 2)).2
      = [HubEvent.deliveredTo 1 "tick", HubEvent.viewerSendFailed 2,
         HubEvent.deliveredTo 3 "tick"]
    ∧ ((broadcast ⟨[], [("srv-1", [1, 2, 3]), ("srv-2", [9])]⟩ "srv-1" "tick"
        (fun c => c = 2)).2).count (HubEvent.deliveredTo 1 "tick") = 1
    ∧ ((broadcast ⟨[], [("srv-1", [1, 2, 3]), ("srv-2", [9])]⟩ "srv-1" "tick"
        (fun c => c = 2)).2).count (HubEvent.deliveredTo 3 "tick") = 1
    ∧ mapLookup (broadcast ⟨[], [("srv-1", [1, 2, 3]), ("srv-2", [9])]⟩ "srv-1"
        "tick" (fun c => c = 2)).1.clients "srv-1" = some [1, 3]
    ∧ mapLookup (broadcast ⟨[], [("srv-1", [1, 2, 3]), ("srv-2", [9])]⟩ "srv-1"
        "tick" (fun c => c = 2)).1.clients "srv-2"
        = mapLookup [("srv-1", [1, 2, 3]), ("srv-2", [9])] "srv-2" := by
  have h := broadcast_single_failure_isolated
    ⟨[], [("srv-1", [1, 2, 3]), ("srv-2", [9])]⟩ "srv-1" "tick"
    (fun c => c = 2) [1, 2, 3] 2 (by decide) (by decide) (by decide)
    (by decide) (by decide)
  refine ⟨by simpa using h.1, h.2.1 1 (by decide) (by decide),
    h.2.1 3 (by decide) (by decide), ?_, h.2.2.2.2 "srv-2" (by decide)⟩
  have h4 := h.2.2.2.1
  simpa using h4

theorem f64toDuration_intCast (z : ℤ) : f64toDuration (z : ℚ) = z := by
  simp [f64toDuration, Rat.num_intCast, Rat.den_intCast]

/-- With multiplier 2 and a positive cap, `nextBackoff` of a positive
current value is the doubled value clamped at the cap. -/
theorem nextBackoff_double (b cap : Int) (hb : 0 < b) (hcap : 0 < cap) :
    nextBackoff b 2 cap = min (2 * b) cap := by
  have h1 : ¬ b ≤ 0 := not_le.mpr hb
  have h2 : ¬ ((2 : ℚ) < 11 / 10) := by norm_num
  have h3 : f64toDuration ((b : ℚ) * 2) = 2 * b := by
    have heq : ((b : ℚ) * 2) = ((2 * b : ℤ) : ℚ) := by push_cast; ring
    rw [heq, f64toDuration_intCast]
  simp only [nextBackoff, h1, if_false, h2, h3]
  split_ifs <;> omega

/-- With multiplier 2 and `0 < initial ≤ cap`, every element of the backoff
sequence is positive and at most the cap. -/
theorem backoffSeq_double_invariant (initial cap : Int) (hinit : 0 < initial)
    (hcap : initial ≤ cap) (n : Nat) :
    0 < backoffSeq initial 2 cap n ∧ backoffSeq initial 2 cap n ≤ cap := by
  induction n with
  | zero =>
      simp only [backoffSeq, not_le.mpr hinit, if_false]
      exact ⟨hinit, hcap⟩
  | succ n ih =>
      rw [backoffSeq, nextBackoff_double _ _ ih.1 (lt_of_lt_of_le hinit hcap)]
      omega

/-- C6: with initial = 1s, multiplier = 2, cap = 30s and no jitter, the
supervisor's successive reconnect waits are exactly 1s, 2s, 4s, 8s, 16s,
30s, 30s, …; the sequence is non-decreasing and never exceeds the cap. With
a jitter ceiling j > 0 and random draw r ∈ [0, j), each wait is the current
backoff plus r, hence in [backoff, backoff + j). -/
theorem backoff_sequence_and_jitter (j r : Int) (hj : 0 < j) (hr0 : 0 ≤ r)
    (hrj : r < j) :
    (backoffSeq second 2 (30 * second) 0 = second
     ∧ backoffSeq second 2 (30 * second) 1 = 2 * second
     ∧ backoffSeq second 2 (30 * second) 2 = 4 * second
     ∧ backoffSeq second 2 (30 * second) 3 = 8 * second
     ∧ backoffSeq second 2 (30 * second) 4 = 16 * second
     ∧ backoffSeq second 2 (30 * second) 5 = 30 * second
     ∧ backoffSeq second 2 (30 * second) 6 = 30 * second)
    ∧ (∀ n, backoffSeq second 2 (30 * second) n
        ≤ backoffSeq second 2 (30 * second) (n + 1))
    ∧ (∀ n, backoffSeq second 2 (30 * second) n ≤ 30 * second)
    ∧ (∀ b : Int, applyJitter b 0 r = b)
    ∧ (∀ b : Int, applyJitter b j r = b + r
        ∧ b ≤ applyJitter b j r ∧ applyJitter b j r < b + j) := by
  have hs : (0 : Int) < second := by norm_num [second]
  have h30 : (0 : Int) < 30 * second := by norm_num [second]
  have hsc : second ≤ 30 * second := by norm_num [second]
  have hinv := backoffSeq_double_invariant second (30 * second) hs hsc
  have e0 : backoffSeq second 2 (30 * second) 0 = second := by
    simp [backoffSeq, not_le.mpr hs]
  have step : ∀ n : Nat, backoffSeq second 2 (30 * second) (n + 1)
      = min (2 * backoffSeq second 2 (30 * second) n) (30 * second) := by
    intro n
    rw [backoffSeq, nextBackoff_double _ _ (hinv n).1 h30]
  have e1 : backoffSeq second 2 (30 * second) 1 = 2 * second := by
    have h := step 0; norm_num at h; rw [h, e0]; simp only [second]; omega
  have e2 : backoffSeq second 2 (30 * second) 2 = 4 * second := by
    have h := step 1; norm_num at h; rw [h, e1]; simp only [second]; omega
  have e3 : backoffSeq second 2 (30 * second) 3 = 8 * second := by
    have h := step 2; norm_num at h; rw [h, e2]; simp only [second]; omega
  have e4 : backoffSeq second 2 (30 * second) 4 = 16 * second := by
    have h := step 3; norm_num at h; rw [h, e3]; simp only [second]; omega
  have e5 : backoffSeq second 2 (30 * second) 5 = 30 * second := by
    have h := step 4; norm_num at h; rw [h, e4]; simp only [second]; omega
  have e6 : backoffSeq second 2 (30 * second) 6 = 30 * second := by
    have h := step 5; norm_num at h; rw [h, e5]; simp only [second]; omega
  refine ⟨⟨e0, e1, e2, e3, e4, e5, e6⟩, ?_, fun n => (hinv n).2, fun b => rfl, ?_⟩
  · intro n
    rw [step n]
    have h1 := (hinv n).1
    have h2 := (hinv n).2
    omega
  · intro b
    have hjn : ¬ j ≤ 0 := not_le.mpr hj
    refine ⟨by simp [applyJitter, hjn], ?_, ?_⟩ <;> simp [applyJitter, hjn] <;> omega

/-- C6 witness: the default 500ms jitter ceiling with a concrete draw. -/
theorem backoff_sequence_and_jitter_witness :
    backoffSeq second 2 (30 * second) 5 = 30 * second
    ∧ applyJitter second 500000000 123 = second + 123
    ∧ applyJitter second 0 123 = second := by
  have h := backoff_sequence_and_jitter 500000000 123 (by norm_num)
    (by norm_num) (by norm_num)
  exact ⟨h.1.2.2.2.2.2.1, (h.2.2.2.2 second).1, h.2.2.2.1 second⟩

/-- C7 counterexample: a bridging run that failed after a full hour — far
beyond any trivial duration threshold — does not get its backoff reset: at
current backoff 4s the next wait is advanced geometrically to 8s, not reset
to the 1s initial. -/
theorem backoff_not_reset_after_long_run_cex :
    (mainIter second 2 (30 * second) 0 0 ⟨⟨5, 2, "", 0⟩, 4 * second, 3⟩
        (.failed "websocket: close 1006 (abnormal closure)"
          (3600 * second))).1.backoff = 8 * second
    ∧ (mainIter second 2 (30 * second) 0 0 ⟨⟨5, 2, "", 0⟩, 4 * second, 3⟩
        (.failed "websocket: close 1006 (abnormal closure)"
          (3600 * second))).1.backoff ≠ second := by
  have hb : (mainIter second 2 (30 * second) 0 0 ⟨⟨5, 2, "", 0⟩, 4 * second, 3⟩
      (.failed "websocket: close 1006 (abnormal closure)"
        (3600 * second))).1.backoff
      = nextBackoff (4 * second) 2 (30 * second) := rfl
  rw [nextBackoff_double (4 * second) (30 * second) (by norm_num [second])
    (by norm_num [second])] at hb
  constructor
  · rw [hb]; simp only [second]; omega
  · rw [hb]; simp only [second]; omega

/-- C7 amended: the supervisor has no session-duration threshold. After a
failing run the backoff is always advanced with `nextBackoff` and a
jittered retry is scheduled, whatever the run's duration was; the backoff
returns to its initial value only when `runOnce` returns a nil error (an
outcome the bridge pipes never produce for a run that failed). -/
theorem backoff_reset_only_on_nil_error
    (initial : Int) (mult : ℚ) (cap jitter r : Int) (st : SupervisorState)
    (msg : String) (d d2 : Int) :
    (mainIter initial mult cap jitter r st (.failed msg d)).1.backoff
        = nextBackoff st.backoff mult cap
    ∧ (mainIter initial mult cap jitter r st (.failed msg d)).2
        = .retryAfter (applyJitter st.backoff jitter r)
    ∧ (mainIter initial mult cap jitter r st (.succeeded d2)).1.backoff
        = (if initial ≤ 0 then second else initial) :=
  ⟨rfl, rfl, rfl⟩

/-- C8 counterexample: a session ended by external cancellation does stop
the loop with no retry, but the cancellation is recorded as a failure: from
a fresh telemetry state the session-failure counter rises to 1 and the
last-error string is overwritten with the cancellation error. -/
theorem cancellation_records_failure_cex :
    (mainIter second 2 (30 * second) 0 0 ⟨⟨0, 0, "", 0⟩, second, 1⟩
        (.canceled "context canceled" (5 * second))).2 = .stopLoop
    ∧ (mainIter second 2 (30 * second) 0 0 ⟨⟨0, 0, "", 0⟩, second, 1⟩
        (.canceled "context canceled" (5 * second))).1.metrics.failures = 1
    ∧ (mainIter second 2 (30 * second) 0 0 ⟨⟨0, 0, "", 0⟩, second, 1⟩
        (.canceled "context canceled" (5 * second))).1.metrics.lastError
        = "context canceled" :=
  ⟨rfl, rfl, rfl⟩

/-- C8 amended: external cancellation stops the reconnect loop immediately
— the iteration returns with no retry scheduled and the backoff value is
left untouched — but the cancelled session is still recorded as a failure:
`recordSessionFailure` runs, incrementing the session-failure counter and
setting the last-error string to the cancellation error. -/
theorem cancellation_stops_and_records
    (initial : Int) (mult : ℚ) (cap jitter r : Int) (st : SupervisorState)
    (msg : String) (d : Int) :
    (mainIter initial mult cap jitter r st (.canceled msg d)).2 = .stopLoop
    ∧ (mainIter initial mult cap jitter r st (.canceled msg d)).1.metrics.failures
        = st.metrics.failures + 1
    ∧ (mainIter initial mult cap jitter r st (.canceled msg d)).1.metrics.lastError
        = msg
    ∧ (mainIter initial mult cap jitter r st (.canceled msg d)).1.metrics.sessions
        = st.metrics.sessions + 1
    ∧ (mainIter initial mult cap jitter r st (.canceled msg d)).1.backoff
        = st.backoff :=
  ⟨rfl, rfl, rfl, rfl, rfl⟩

/-- C9: in a bridge session, every frame read from the control-plane
transport is forwarded to the managed endpoint unmodified; a frame read
from the managed endpoint whose id matches an outstanding self-issued
pending call resolves that call (removing its slot) and is not forwarded;
every other managed-endpoint frame — unmatched id, no id, or undecodable —
is forwarded to the control plane unmodified with the pending table
untouched. -/
theorem bridge_relay
    (p : Pending) (data : RawMsg) (e : Env) (i : String) (ch : Chan) :
    pipeAPIToMCStep data = data
    ∧ (e.id = some i → i.length > 0 → mapLookup p i = some ch →
        pipeMCToAPIStep p (some e) data
          = (mapDelete p i, .deliveredToCall ch data))
    ∧ (e.id = some i → mapLookup p i = none →
        pipeMCToAPIStep p (some e) data = (p, .forwardedToAPI data))
    ∧ (e.id = none →
        pipeMCToAPIStep p (some e) data = (p, .forwardedToAPI data))
    ∧ pipeMCToAPIStep p none data = (p, .forwardedToAPI data) := by
  refine ⟨rfl, ?_, ?_, ?_, rfl⟩
  · intro hi hlen hp
    simp [pipeMCToAPIStep, handleMCMessage, hi, hlen, removePending, hp]
  · intro hi hp
    by_cases hlen : i.length > 0
    · simp [pipeMCToAPIStep, handleMCMessage, hi, hlen, removePending, hp]
    · simp [pipeMCToAPIStep, handleMCMessage, hi, hlen]
  · intro hi
    simp [pipeMCToAPIStep, handleMCMessage, hi]

/-- C9 witness: a control-plane command forwarded verbatim; a response to
the self-issued discovery call (id namespaced `agent:`) intercepted and its
slot removed; a response for a control-plane-issued id and an id-less event
both forwarded verbatim. -/
theorem bridge_relay_witness :
    pipeAPIToMCStep "cmd-frame" = "cmd-frame"
    ∧ pipeMCToAPIStep [("\"agent:77\"", 7)]
        (some ⟨none, some "\"agent:77\"", none, none⟩) "disc-resp"
      = ([], .deliveredToCall 7 "disc-resp")
    ∧ pipeMCToAPIStep [("\"agent:77\"", 7)]
        (some ⟨none, some "\"55\"", none, none⟩) "other-resp"
      = ([("\"agent:77\"", 7)], .forwardedToAPI "other-resp")
    ∧ pipeMCToAPIStep [("\"agent:77\"", 7)]
        (some ⟨none, none, some "\"notify\"", none⟩) "event"
      = ([("\"agent:77\"", 7)], .forwardedToAPI "event") := by
  have h1 := bridge_relay [("\"agent:77\"", 7)] "disc-resp"
    ⟨none, some "\"agent:77\"", none, none⟩ "\"agent:77\"" 7
  have h2 := bridge_relay [("\"agent:77\"", 7)] "other-resp"
    ⟨none, some "\"55\"", none, none⟩ "\"55\"" 0
  have h3 := bridge_relay [("\"agent:77\"", 7)] "event"
    ⟨none, none, some "\"notify\"", none⟩ "x" 0
  refine ⟨rfl, ?_, ?_, ?_⟩
  · have h := h1.2.1 rfl (by decide) (by decide)
    simpa [mapDelete] using h
  · exact h2.2.2.1 rfl (by decide)
  · exact h3.2.2.2.1 rfl

end Conduit
